import Mathlib

/-!
Shallow embedding of `src/save.js` (an Express admin proxy) and proofs about
its auth gate, date normalizer, record mapper and import/export pipeline.

JavaScript numbers appearing as spreadsheet serial day counts are modelled as
`Int`; strings as Lean `String`; `null`/`undefined` scalars as `JSVal.nul`;
JS `Date` objects as their epoch-millisecond value (`none` = Invalid Date).
-/

namespace Save

/-- A JavaScript scalar as it can reach `normalizeDate` or a mapped row cell. -/
inductive JSVal where
  | nul : JSVal
  | str (s : String) : JSVal
  | num (v : Int) : JSVal
  | jsdate (ms : Option Int) : JSVal
  deriving DecidableEq, Repr

/-- JavaScript falsiness of a scalar (`!v`): null/undefined, the empty string
and the number 0 are falsy; objects (Date) are always truthy. -/
def JSVal.falsy : JSVal → Bool
  | .nul => true
  | .str s => s == ""
  | .num v => v == 0
  | .jsdate _ => false

/-- JavaScript `String(v)`.  A valid `Date` stringifies to a locale string that
contains letters and so never matches the date regexes; we use an opaque
stand-in with the same two relevant properties (non-empty, no regex match). -/
def jsToString : JSVal → String
  | .nul => "null"
  | .str s => s
  | .num v => toString v
  | .jsdate none => "Invalid Date"
  | .jsdate (some ms) => "DateObject@" ++ toString ms

/-- JS `String.prototype.toLowerCase` (ASCII range).  Defined structurally on
the character list so that it evaluates by reduction. -/
def jsToLower (s : String) : String := String.mk (s.data.map Char.toLower)

/-- JS `String.prototype.trim`: strip whitespace from both ends.  Defined
structurally on the character list so that it evaluates by reduction. -/
def jsTrim (s : String) : String :=
  String.mk (((s.data.dropWhile Char.isWhitespace).reverse.dropWhile Char.isWhitespace).reverse)

/-- Left-pad a string with zeros to length `k` (JS `padStart(k, '0')`). -/
def padZeros (k : Nat) (s : String) : String :=
  String.mk (List.replicate (k - s.data.length) '0') ++ s

/-- Days-from-civil (proleptic Gregorian): day count relative to 1970-01-01
for year `y`, month `m` (1..12), day `d`.  Standard civil-calendar algorithm,
as used by ECMAScript `Date`. -/
def daysFromCivil (y : Int) (m d : Nat) : Int :=
  let y1 : Int := y - (if m ≤ 2 then 1 else 0)
  let era : Int := Int.ediv y1 400
  let yoe : Int := y1 - era * 400
  let doy : Int := Int.ediv (153 * ((m : Int) + (if 2 < m then -3 else 9)) + 2) 5 + (d : Int) - 1
  let doe : Int := yoe * 365 + Int.ediv yoe 4 - Int.ediv yoe 100 + doy
  era * 146097 + doe - 719468

/-- Civil-from-days (proleptic Gregorian): the calendar date of the day `z`
days after 1970-01-01. -/
def civilFromDays (z : Int) : Int × Nat × Nat :=
  let z1 : Int := z + 719468
  let era : Int := Int.ediv z1 146097
  let doe : Nat := (Int.emod z1 146097).toNat
  let yoe : Nat := (doe - doe / 1460 + doe / 36524 - doe / 146096) / 365
  let y : Int := (yoe : Int) + era * 400
  let doy : Nat := doe - (365 * yoe + yoe / 4 - yoe / 100)
  let mp : Nat := (5 * doy + 2) / 153
  let d : Nat := doy - (153 * mp + 2) / 5 + 1
  let m : Nat := if mp < 10 then mp + 3 else mp - 9
  (y + (if m ≤ 2 then 1 else 0), m, d)

/-- The `YYYY-MM-DD` string of the day `z` days after the Unix epoch, i.e.
what `new Date(z*86400000).toISOString().slice(0,10)` yields for years
0000..9999 (the year is zero-padded to four digits).  This model is faithful
ONLY on that range: outside it the program emits a signed six-digit extended
year whose 10-character slice is truncated mid-date (`+010000-01`), and
beyond 100,000,000 days the `Date` is invalid and `toISOString` throws a
RangeError.  Neither behavior is modelled, and no theorem below asserts a
value outside the faithful range. -/
def isoStringOfDays (z : Int) : String :=
  let c := civilFromDays z
  let ystr := if 0 ≤ c.1 then padZeros 4 (toString c.1.toNat) else "-" ++ toString (-c.1).toNat
  ystr ++ "-" ++ padZeros 2 (toString c.2.1) ++ "-" ++ padZeros 2 (toString c.2.2)

/-- Maximal leading digit run of a character list, with the rest. -/
def takeDigits (cs : List Char) : List Char × List Char :=
  (cs.takeWhile Char.isDigit, cs.dropWhile Char.isDigit)

/-- A date separator, the character class `[S]` of the source regexes. -/
def isSep (c : Char) : Bool := c == '-' || c == '/'

/-- Decompose a whole string as `digits sep digits sep digits`.  Both source
regexes (`^(\d{4})[S](\d{1,2})[S](\d{1,2})$` and
`^(\d{1,2})[S](\d{1,2})[S](\d{2,4})$`) anchor the whole string and
alternate digit groups with the separator class, so a match forces exactly
this token shape with maximal digit runs; the groups differ only in the run
lengths they accept, checked by the caller. -/
def splitDateRuns (cs : List Char) : Option (List Char × List Char × List Char) :=
  let p1 := takeDigits cs
  match p1.2 with
  | s1 :: r2 =>
    if isSep s1 then
      let p2 := takeDigits r2
      match p2.2 with
      | s2 :: r4 =>
        if isSep s2 then
          let p3 := takeDigits r4
          if p3.2 = [] then some (p1.1, p2.1, p3.1) else none
        else none
      | [] => none
    else none
  | [] => none

/-- Numeric value of a digit string (JS `Number` on an all-digit string);
leading zeros are dropped, e.g. `Number("024") = 24`. -/
def natOfDigits (cs : List Char) : Nat :=
  cs.foldl (fun a c => a * 10 + (c.toNat - 48)) 0

/-- The year fix-up of source line 197: `let y=Number(dmy[3]);
if(y<100) y+= (y>=70?1900:2000);` — values below 100 are pivoted at 70,
larger values (including 3-digit years) pass through unchanged. -/
def yearMap (y0 : Nat) : Nat :=
  if y0 < 100 then (if 70 ≤ y0 then 1900 + y0 else 2000 + y0) else y0

/-- The string branch of `normalizeDate` (source lines 193-198): try the ISO
pattern `^(\d{4})[S](\d{1,2})[S](\d{1,2})$`, then the day-month-year
pattern `^(\d{1,2})[S](\d{1,2})[S](\d{2,4})$`, else `null`. -/
def normStr (s : String) : Option String :=
  match splitDateRuns s.data with
  | some (a, b, c) =>
    if a.length = 4 ∧ 1 ≤ b.length ∧ b.length ≤ 2 ∧ 1 ≤ c.length ∧ c.length ≤ 2 then
      some (String.mk a ++ "-" ++ padZeros 2 (String.mk b) ++ "-" ++ padZeros 2 (String.mk c))
    else if 1 ≤ a.length ∧ a.length ≤ 2 ∧ 1 ≤ b.length ∧ b.length ≤ 2 ∧
            2 ≤ c.length ∧ c.length ≤ 4 then
      some (toString (yearMap (natOfDigits c)) ++ "-" ++ padZeros 2 (String.mk b) ++ "-" ++
        padZeros 2 (String.mk a))
    else none
  | none => none

/-- `normalizeDate` (source lines 189-199).  Falsy input (null, empty string,
the number 0) returns null; a valid Date returns its UTC calendar date; a
number `v` is treated as epoch milliseconds `(v - 25569) * 86400000`
(`Math.round` is exact on our integer model); otherwise the trimmed string is
matched against the two date patterns.  Via `isoStringOfDays`, the Date and
numeric branches are faithful only while the resulting year lies in
0000..9999 (serials `-693959 ≤ v ≤ 2958465`): outside it the program slices
a truncated extended-year string or, past the `Date` range, throws a
RangeError that the surrounding handler turns into a 500 — a failure path
this total model does not represent.  Theorems about numeric inputs are
therefore stated only on the faithful range. -/
def normalizeDate (v : JSVal) : Option String :=
  if v.falsy then none
  else
    match v with
    | .jsdate (some ms) => some (isoStringOfDays (Int.ediv ms 86400000))
    | .num n => some (isoStringOfDays (Int.ediv ((n - 25569) * 86400000) 86400000))
    | v => normStr (jsTrim (jsToString v))

example : normalizeDate (.str "2024-3-5") = some "2024-03-05" := by decide
example : normalizeDate (.str "5/3/24") = some "2024-03-05" := by decide
example : normalizeDate (.str "") = none := by decide
example : normalizeDate (.str "not a date") = none := by decide
example : normalizeDate (.num 0) = none := by decide
example : normalizeDate (.str "5/3/123") = some "123-03-05" := by decide
example : daysFromCivil 1899 12 30 = -25569 := by decide
example : normalizeDate (.num 45000) = some "2023-03-15" := by decide

/-! ## Auth gate (`adminAuth`, source lines 31-53) -/

/-- The environment-derived configuration the gate reads: `ADMIN_API_KEY`
(`process.env.ADMIN_API_KEY || null`, so never the empty string) and
`ADMIN_EMAILS` (split, trimmed, empties filtered). -/
structure Config where
  adminApiKey : Option String
  adminEmails : List String
  deriving Repr

/-- The resolved identity-service user: `data.user` with its `email` and
`app_metadata.role` claim (`none` when the claim is absent). -/
structure User where
  email : String
  role : Option String
  deriving DecidableEq, Repr

/-- The credential material of one inbound request. -/
structure Req where
  xAdminKey : Option String
  adminKeyQuery : Option String
  xLegacyAdminKey : Option String
  authorization : Option String
  deriving Repr

/-- Outcome of the gate: `next()` was called (with the optional
`req.adminUser`), or the request was rejected with a status and error body. -/
inductive AuthResult where
  | admitted (adminUser : Option User) : AuthResult
  | rejected (status : Nat) (error : String) : AuthResult
  deriving DecidableEq, Repr

/-- JS truthiness of a string-or-undefined value. -/
def truthy : Option String → Bool
  | none => false
  | some s => s != ""

/-- JS `a || b`: `b` when `a` is falsy. -/
def jsOr (a b : Option String) : Option String := if truthy a then a else b

/-- Source line 33: `req.headers['x-admin-key'] || req.query.admin_key ||
req.headers['x-legacy-admin-key']` — the first truthy source wins. -/
def Req.key (req : Req) : Option String :=
  jsOr req.xAdminKey (jsOr req.adminKeyQuery req.xLegacyAdminKey)

/-- Source line 34: `key && ADMIN_API_KEY && key === ADMIN_API_KEY`. -/
def staticKeyAdmits (cfg : Config) (req : Req) : Bool :=
  truthy req.key && truthy cfg.adminApiKey && (req.key == cfg.adminApiKey)

/-- JS `String.prototype.split` with a one-character separator, on character
lists; `"".split(sep)` is `[""]`. -/
def splitChar (sep : Char) : List Char → List (List Char)
  | [] => [[]]
  | c :: rest =>
    let r := splitChar sep rest
    if c = sep then [] :: r
    else
      match r with
      | h :: t => (c :: h) :: t
      | [] => [[c]]

/-- JS `s.split(' ')`. -/
def splitSpaces (s : String) : List String := (splitChar ' ' s.data).map String.mk

/-- Source lines 36-37: `(req.headers['authorization'] || '').split(' ')`,
bearer-style iff it has exactly two parts and the first lowercases to
`bearer`; the token is the second part. -/
def bearerToken (authorization : Option String) : Option String :=
  let auth := splitSpaces ((jsOr authorization (some "")).getD "")
  if auth.length = 2 ∧ jsToLower (auth.headD "") = "bearer" then some (auth.getD 1 "")
  else none

/-- `adminAuth` (source lines 31-53), with the identity service
`sb.auth.getUser` abstracted as an oracle `getUser`; `none` covers both the
`error` and the missing-`data.user` outcome (the code treats them alike). -/
def adminAuth (cfg : Config) (getUser : String → Option User) (req : Req) : AuthResult :=
  if staticKeyAdmits cfg req then .admitted none
  else
    match bearerToken req.authorization with
    | some token =>
      match getUser token with
      | none => .rejected 401 "invalid token"
      | some user =>
        let role := (jsOr user.role (some "")).getD ""
        if role != "" && jsToLower role == "admin" then .admitted (some user)
        else if cfg.adminEmails.length != 0 && cfg.adminEmails.contains user.email then
          .admitted (some user)
        else .rejected 403 "forbidden"
    | none => .rejected 401 "missing credentials"

/-! ## Record mapper (source lines 202-214) -/

/-- One raw spreadsheet row: each of the ten row-sourced logical fields can
appear under its canonical English column name or its localized (Thai)
alternate; `.nul` stands for an absent cell (`undefined`).  The `th…` fields
are the quoted Thai column names of source lines 203-212. -/
structure Row where
  brand_name : JSVal := .nul
  thBrand : JSVal := .nul
  common_label : JSVal := .nul
  thCommon : JSVal := .nul
  registration_no : JSVal := .nul
  thRegNo : JSVal := .nul
  importer : JSVal := .nul
  thImporter : JSVal := .nul
  manufacturer_source : JSVal := .nul
  thManufacturer : JSVal := .nul
  distributor : JSVal := .nul
  thDistributor : JSVal := .nul
  packed_volume : JSVal := .nul
  thPacked : JSVal := .nul
  registration_date : JSVal := .nul
  thRegDate : JSVal := .nul
  expiry_date : JSVal := .nul
  thExpiry : JSVal := .nul
  license_no : JSVal := .nul
  thLicense : JSVal := .nul
  deriving Repr

/-- JS `a || b` on scalars: `b` when `a` is falsy. -/
def jsOrV (a b : JSVal) : JSVal := if a.falsy then b else a

/-- A canonical registration record as built by the mapper.  `company_code`
is `req.body.company_code` (possibly `undefined`); the optional pass-through
fields keep the raw truthy cell value or JS `null`. -/
structure Record where
  company_code : Option String
  brand_name : String
  common_label : String
  registration_no : JSVal
  importer : JSVal
  manufacturer_source : JSVal
  distributor : JSVal
  packed_volume : JSVal
  registration_date : Option String
  expiry_date : Option String
  license_no : JSVal
  deriving DecidableEq, Repr

/-- The row-to-record mapping of source lines 202-213. -/
def mapRow (company_code : Option String) (r : Row) : Record :=
  { company_code
    brand_name := jsTrim (jsToString (jsOrV r.brand_name (jsOrV r.thBrand (.str ""))))
    common_label := jsTrim (jsToString (jsOrV r.common_label (jsOrV r.thCommon (.str ""))))
    registration_no := jsOrV r.registration_no (jsOrV r.thRegNo .nul)
    importer := jsOrV r.importer (jsOrV r.thImporter .nul)
    manufacturer_source := jsOrV r.manufacturer_source (jsOrV r.thManufacturer .nul)
    distributor := jsOrV r.distributor (jsOrV r.thDistributor .nul)
    packed_volume := jsOrV r.packed_volume (jsOrV r.thPacked .nul)
    registration_date := normalizeDate (jsOrV r.registration_date r.thRegDate)
    expiry_date := normalizeDate (jsOrV r.expiry_date r.thExpiry)
    license_no := jsOrV r.license_no (jsOrV r.thLicense .nul) }

/-- The mandatory-field filter of source line 214:
`.filter(x => x.brand_name && x.common_label)`. -/
def keepRecord (x : Record) : Bool := x.brand_name != "" && x.common_label != ""

/-- `records.map(...).filter(...)` of source lines 202-214. -/
def mappedRows (company_code : Option String) (rows : List Row) : List Record :=
  (rows.map (mapRow company_code)).filter keepRecord

/-! ## Import pipeline (source lines 216-230) -/

/-- Structural worker for `chunks500`; `fuel` bounds the recursion depth
(any `fuel ≥ l.length` gives the same result, and the `0` case with a
non-empty list is unreachable then).  Structural recursion keeps the
function computable by kernel reduction. -/
def chunksAux {α : Type} : Nat → List α → List (List α)
  | _, [] => []
  | 0, _ :: _ => []
  | fuel + 1, x :: xs => ((x :: xs).take 500) :: chunksAux fuel (xs.drop 499)

/-- The chunking performed by `for(let i=0;i<mapped.length;i+=CHUNK)` with
`mapped.slice(i, i+CHUNK)` and `CHUNK = 500`: successive 500-element slices
of the list. -/
def chunks500 {α : Type} (l : List α) : List (List α) := chunksAux l.length l

/-- The `results` accumulator of source line 221. -/
structure ImportResults where
  total : Nat
  success : Nat
  failed : Nat
  errors : List String
  deriving DecidableEq, Repr

/-- The batch-insert loop of source lines 222-229, one iteration per chunk.
`ins k` tells whether the `k`-th insert call succeeds and `errMsg k` is the
backend `error.message` of a failed `k`-th call; the second component of the
result counts the insert calls issued. -/
def importLoop (ins : Nat → Bool) (errMsg : Nat → String) :
    Nat → List (List Record) → ImportResults → ImportResults × Nat
  | k, [], r => (r, k)
  | k, c :: cs, r =>
    if ins k then
      importLoop ins errMsg (k + 1) cs { r with success := r.success + c.length }
    else
      importLoop ins errMsg (k + 1) cs
        { r with failed := r.failed + c.length, errors := r.errors ++ [errMsg k] }

/-- Source lines 220-229: chunk the mapped records and run the insert loop on
the initial accumulator `{ total: mapped.length, success: 0, failed: 0,
errors: [] }`. -/
def runImport (ins : Nat → Bool) (errMsg : Nat → String) (mapped : List Record) :
    ImportResults × Nat :=
  importLoop ins errMsg 0 (chunks500 mapped)
    { total := mapped.length, success := 0, failed := 0, errors := [] }

/-- One persistence operation issued by the import handler. -/
inductive Op where
  | del (company_code : Option String) : Op
  | ins (chunk : List Record) : Op
  deriving DecidableEq, Repr

def Op.isDel : Op → Bool
  | .del _ => true
  | .ins _ => false

/-- The ordered persistence calls of source lines 216-229: the scoped delete
(only under replace mode, line 217) followed by one insert per chunk. -/
def importTrace (replaceMode : Bool) (company_code : Option String)
    (mapped : List Record) : List Op :=
  (if replaceMode then [Op.del company_code] else []) ++ (chunks500 mapped).map Op.ins

/-- Effect of one persistence call on the backing table (`ok` = the call
succeeded): the delete removes every record of the scope, a failed call
leaves the table unchanged. -/
def execOp (ok : Bool) (table : List Record) : Op → List Record
  | .del cc => if ok then table.filter (fun r => r.company_code != cc) else table
  | .ins chunk => if ok then table ++ chunk else table

/-- Run a trace of persistence calls against a table, the `k`-th call
succeeding iff `ok k`. -/
def execTrace (ok : Nat → Bool) : Nat → List Op → List Record → List Record
  | _, [], t => t
  | k, op :: ops, t => execTrace ok (k + 1) ops (execOp (ok k) t op)

/-! ## Handler entry checks (source lines 171-178 and 237-238) -/

/-- Source line 174: `req.body.replace_mode === '1' || req.body.replace_mode
=== 'true'`. -/
def parseReplaceMode (v : Option String) : Bool := v == some "1" || v == some "true"

/-- Outcome of the import handler, persistence effects reified: either an
early 400, or the pipeline ran yielding the results summary, the number of
insert calls and the ordered trace of persistence calls. -/
inductive ImportOutcome where
  | badRequest (status : Nat) (error : String) : ImportOutcome
  | ran (results : ImportResults) (calls : Nat) (trace : List Op) : ImportOutcome
  deriving DecidableEq, Repr

/-- The `POST /api/admin/import-csv` handler (source lines 171-231) after
file parsing: `file` is the parsed row list (`none` = no upload, rejected at
line 173).  Note line 175 reads `company_code` without any presence check. -/
def importHandler (file : Option (List Row)) (company_code : Option String)
    (replace_mode : Option String) (ins : Nat → Bool) (errMsg : Nat → String) :
    ImportOutcome :=
  match file with
  | none => .badRequest 400 "missing file"
  | some rows =>
    let replaceMode := parseReplaceMode replace_mode
    let mapped := mappedRows company_code rows
    let rc := runImport ins errMsg mapped
    .ran rc.1 rc.2 (importTrace replaceMode company_code mapped)

/-- The entry check of the `GET /api/admin/export` handler (source lines
237-238): `const code = String(req.query.code || ''); if(!code) return 400`.
`.ok code` means the handler proceeds to query the scope `code`. -/
def exportScope (codeQuery : Option String) : Except (Nat × String) String :=
  let code := (jsOr codeQuery (some "")).getD ""
  if code = "" then .error (400, "missing code") else .ok code

/-! ## Import-loop bookkeeping lemmas -/

/-- Total size of the chunks whose insert call fails, calls numbered from
`k`. -/
def sumFailed (ins : Nat → Bool) : Nat → List (List Record) → Nat
  | _, [] => 0
  | k, c :: cs => (if ins k then 0 else c.length) + sumFailed ins (k + 1) cs

/-- The error messages of the failed insert calls, in call order. -/
def failedMsgs (ins : Nat → Bool) (errMsg : Nat → String) :
    Nat → List (List Record) → List String
  | _, [] => []
  | k, _ :: cs => (if ins k then [] else [errMsg k]) ++ failedMsgs ins errMsg (k + 1) cs

lemma importLoop_spec (ins : Nat → Bool) (errMsg : Nat → String) :
    ∀ (cs : List (List Record))  (k : Nat) (r : ImportResults),
      (importLoop ins errMsg k cs r).1.total = r.total ∧
      (importLoop ins errMsg k cs r).1.success + (importLoop ins errMsg k cs r).1.failed =
        r.success + r.failed + (cs.map List.length).sum ∧
      (importLoop ins errMsg k cs r).1.failed = r.failed + sumFailed ins k cs ∧
      (importLoop ins errMsg k cs r).1.errors = r.errors ++ failedMsgs ins errMsg k cs ∧
      (importLoop ins errMsg k cs r).2 = k + cs.length := by
  intro cs
  induction cs with
  | nil => intro k r; simp [importLoop, sumFailed, failedMsgs]
  | cons c cs ih =>
    intro k r
    by_cases h : ins k = true
    · obtain ⟨t1, t2, t3, t4, t5⟩ := ih (k + 1) { r with success := r.success + c.length }
      simp only [importLoop, h, if_true, List.map_cons, List.sum_cons, sumFailed,
        failedMsgs, List.length_cons]
      refine ⟨t1, by simp only at t2; omega, by simp only at t3; omega, ?_, by omega⟩
      rw [t4]; simp [h]
    · rw [Bool.not_eq_true] at h
      obtain ⟨t1, t2, t3, t4, t5⟩ :=
        ih (k + 1) { r with failed := r.failed + c.length, errors := r.errors ++ [errMsg k] }
      simp only [importLoop, h, Bool.false_eq_true, if_false, List.map_cons, List.sum_cons,
        sumFailed, failedMsgs, List.length_cons]
      refine ⟨t1, by simp only at t2; omega, by simp only at t3; omega, ?_, by omega⟩
      rw [t4]; simp [h]

lemma chunksAux_congr {α : Type} :
    ∀ (f1 : Nat), ∀ (l : List α) (f2 : Nat), l.length ≤ f1 → l.length ≤ f2 →
      chunksAux f1 l = chunksAux f2 l := by
  intro f1
  induction f1 with
  | zero =>
    intro l f2 h1 _
    have : l = [] := List.eq_nil_of_length_eq_zero (Nat.le_zero.mp h1)
    subst this
    cases f2 <;> rfl
  | succ n ih =>
    intro l f2 h1 h2
    cases l with
    | nil => cases f2 <;> rfl
    | cons x xs =>
      cases f2 with
      | zero => simp at h2
      | succ m =>
        simp only [chunksAux]
        congr 1
        exact ih (xs.drop 499) m
          (by simp only [List.length_drop]; simp only [List.length_cons] at h1; omega)
          (by simp only [List.length_drop]; simp only [List.length_cons] at h2; omega)

lemma chunks500_cons {α : Type} (x : α) (xs : List α) :
    chunks500 (x :: xs) = ((x :: xs).take 500) :: chunks500 (xs.drop 499) := by
  simp only [chunks500, List.length_cons, chunksAux]
  congr 1
  exact chunksAux_congr xs.length (xs.drop 499) (xs.drop 499).length
    (by simp [List.length_drop]) (Nat.le_refl _)

lemma chunks500_length {α : Type} (l : List α) :
    (chunks500 l).length = (l.length + 499) / 500 := by
  have aux : ∀ (fuel : Nat) (l : List α), l.length ≤ fuel →
      (chunksAux fuel l).length = (l.length + 499) / 500 := by
    intro fuel
    induction fuel with
    | zero =>
      intro l h
      have : l = [] := List.eq_nil_of_length_eq_zero (Nat.le_zero.mp h)
      subst this; simp [chunksAux]
    | succ n ih =>
      intro l h
      cases l with
      | nil => simp [chunksAux]
      | cons x xs =>
        simp only [chunksAux, List.length_cons]
        have := ih (xs.drop 499)
          (by simp only [List.length_drop]; simp only [List.length_cons] at h; omega)
        simp only [List.length_drop] at this
        simp only [List.length_cons] at h
        omega
  exact aux l.length l (Nat.le_refl _)

lemma chunks500_sum {α : Type} (l : List α) :
    ((chunks500 l).map List.length).sum = l.length := by
  have aux : ∀ (fuel : Nat) (l : List α), l.length ≤ fuel →
      ((chunksAux fuel l).map List.length).sum = l.length := by
    intro fuel
    induction fuel with
    | zero =>
      intro l h
      have : l = [] := List.eq_nil_of_length_eq_zero (Nat.le_zero.mp h)
      subst this; simp [chunksAux]
    | succ n ih =>
      intro l h
      cases l with
      | nil => simp [chunksAux]
      | cons x xs =>
        simp only [chunksAux, List.map_cons, List.sum_cons, List.length_take,
          List.length_cons]
        have := ih (xs.drop 499)
          (by simp only [List.length_drop]; simp only [List.length_cons] at h; omega)
        simp only [List.length_drop] at this
        simp only [List.length_cons] at h
        omega
  exact aux l.length l (Nat.le_refl _)

lemma chunks500_size {α : Type} (l : List α) : ∀ c ∈ chunks500 l, c.length ≤ 500 := by
  have aux : ∀ (fuel : Nat) (l : List α), ∀ c ∈ chunksAux fuel l, c.length ≤ 500 := by
    intro fuel
    induction fuel with
    | zero => intro l c hc; cases l <;> simp [chunksAux] at hc
    | succ n ih =>
      intro l c hc
      cases l with
      | nil => simp [chunksAux] at hc
      | cons x xs =>
        simp only [chunksAux, List.mem_cons] at hc
        rcases hc with h | h
        · subst h; simp
        · exact ih (xs.drop 499) c h
  exact aux l.length l

lemma execTrace_ins_failed (ok : Nat → Bool) :
    ∀ (cs : List (List Record)) (k : Nat) (t : List Record),
      (∀ j, k ≤ j → ok j = false) → execTrace ok k (cs.map Op.ins) t = t := by
  intro cs
  induction cs with
  | nil => intro k t _; simp [execTrace]
  | cons c cs ih =>
    intro k t h
    simp only [List.map_cons, execTrace, execOp, h k (Nat.le_refl k), Bool.false_eq_true,
      if_false]
    exact ih (k + 1) t fun j hj => h j (Nat.le_of_succ_le hj)

/-- C3: for `N` surviving mapped records the loop issues exactly
`ceil(N/500)` insert calls of at most 500 records each; a failed chunk adds
its size to `failed` and one message to `errors` while later chunks still
run; `total` is always `N` and `success + failed = total`. -/
theorem C3_import_batching (company_code : Option String) (rows : List Row)
    (ins : Nat → Bool) (errMsg : Nat → String) :
    (runImport ins errMsg (mappedRows company_code rows)).2 =
        ((mappedRows company_code rows).length + 499) / 500 ∧
    (∀ c ∈ chunks500 (mappedRows company_code rows), c.length ≤ 500) ∧
    (runImport ins errMsg (mappedRows company_code rows)).1.total =
        (mappedRows company_code rows).length ∧
    (runImport ins errMsg (mappedRows company_code rows)).1.success +
        (runImport ins errMsg (mappedRows company_code rows)).1.failed =
        (mappedRows company_code rows).length ∧
    (runImport ins errMsg (mappedRows company_code rows)).1.failed =
        sumFailed ins 0 (chunks500 (mappedRows company_code rows)) ∧
    (runImport ins errMsg (mappedRows company_code rows)).1.errors =
        failedMsgs ins errMsg 0 (chunks500 (mappedRows company_code rows)) := by
  have h := importLoop_spec ins errMsg (chunks500 (mappedRows company_code rows)) 0
    { total := (mappedRows company_code rows).length, success := 0, failed := 0, errors := [] }
  have hsum := chunks500_sum (mappedRows company_code rows)
  have hlen := chunks500_length (mappedRows company_code rows)
  simp only [runImport]
  refine ⟨?_, chunks500_size _, ?_, ?_, ?_, ?_⟩
  · rw [h.2.2.2.2]; omega
  · exact h.1
  · rw [h.2.1]; simpa using hsum
  · simpa using h.2.2.1
  · simpa using h.2.2.2.1

/-- C4: under replace mode the trace is exactly one scoped delete followed by
the insert batches (so the delete precedes every insert and happens exactly
once); without replace mode no delete is issued; and the operations are not
atomic: if the delete succeeds and every insert fails, no record of the
scope remains. -/
theorem C4_replace_delete_order (company_code : Option String) (mapped : List Record)
    (ok : Nat → Bool) (table : List Record) :
    importTrace true company_code mapped =
        Op.del company_code :: (chunks500 mapped).map Op.ins ∧
    ((importTrace true company_code mapped).filter Op.isDel).length = 1 ∧
    ((importTrace false company_code mapped).filter Op.isDel).length = 0 ∧
    (ok 0 = true → (∀ j, 1 ≤ j → ok j = false) →
      ∀ r ∈ execTrace ok 0 (importTrace true company_code mapped) table,
        r.company_code ≠ company_code) := by
  refine ⟨by simp [importTrace], ?_, ?_, ?_⟩
  · simp only [importTrace, if_pos, List.singleton_append, List.filter_cons]
    simp [Op.isDel, List.filter_map]
  · simp [importTrace, Op.isDel, List.filter_map]
  · intro h0 hrest r hr
    have e1 : importTrace true company_code mapped =
        Op.del company_code :: (chunks500 mapped).map Op.ins := by simp [importTrace]
    rw [e1] at hr
    have e2 : execTrace ok 0 (Op.del company_code :: (chunks500 mapped).map Op.ins) table =
        execTrace ok 1 ((chunks500 mapped).map Op.ins)
          (execOp (ok 0) table (Op.del company_code)) := rfl
    rw [e2, execTrace_ins_failed ok (chunks500 mapped) 1 _ hrest] at hr
    simp only [execOp, h0, if_true] at hr
    have := (List.mem_filter.mp hr).2
    simpa using this

/-- C4 witness. -/
theorem C4_replace_delete_order_witness :
    ((importTrace true (some "C") ([] : List Record)).filter Op.isDel).length = 1 ∧
    execTrace (fun k => k == 0) 0 (importTrace true (some "C") ([] : List Record))
        [{ company_code := some "C", brand_name := "b", common_label := "c",
           registration_no := .nul, importer := .nul, manufacturer_source := .nul,
           distributor := .nul, packed_volume := .nul, registration_date := none,
           expiry_date := none, license_no := .nul }] = [] :=
  ⟨(C4_replace_delete_order (some "C") [] (fun k => k == 0) []).2.1, by decide⟩

/-- C10: with replace mode set and every uploaded row missing `brand_name`
or `common_label`, no row survives the mapper, the request still succeeds
with results `{total: 0, success: 0, failed: 0, errors: []}` and zero insert
calls, yet the trace still contains the scoped delete, so a successful
delete leaves the scope empty. -/
theorem C10_replace_empty_import (company_code : Option String) (rows : List Row)
    (ins : Nat → Bool) (errMsg : Nat → String) (ok : Nat → Bool) (table : List Record)
    (h : ∀ r ∈ rows, (mapRow company_code r).brand_name = "" ∨
        (mapRow company_code r).common_label = "") :
    mappedRows company_code rows = [] ∧
    importHandler (some rows) company_code (some "1") ins errMsg =
      .ran { total := 0, success := 0, failed := 0, errors := [] } 0
        [Op.del company_code] ∧
    (ok 0 = true →
      ∀ r ∈ execTrace ok 0 (importTrace true company_code (mappedRows company_code rows)) table,
        r.company_code ≠ company_code) := by
  have hemp : mappedRows company_code rows = [] := by
    simp only [mappedRows, List.filter_eq_nil_iff]
    intro x hx
    rcases List.mem_map.mp hx with ⟨r, hr, rfl⟩
    rcases h r hr with h1 | h1 <;> simp [keepRecord, h1]
  refine ⟨hemp, ?_, ?_⟩
  · simp [importHandler, hemp, parseReplaceMode, runImport, chunks500, chunksAux,
      importLoop, importTrace]
  · intro h0 r hr
    rw [hemp] at hr
    simp only [importTrace, if_pos, chunks500, chunksAux, List.length_nil, List.map_nil,
      List.append_nil, execTrace, execOp, h0, if_true] at hr
    have := (List.mem_filter.mp hr).2
    simpa using this

/-! ## String date-pattern lemmas (C6) -/

lemma dropWhile_eq_self_of (p : Char → Bool) (l : List Char)
    (h : ∀ ch ∈ l, p ch = false) : l.dropWhile p = l := by
  cases l with
  | nil => rfl
  | cons c cs => simp [List.dropWhile_cons, h c (List.mem_cons_self c cs)]

lemma jsTrim_no_ws (l : List Char) (h : ∀ ch ∈ l, ch.isWhitespace = false) :
    jsTrim (String.mk l) = String.mk l := by
  simp only [jsTrim]
  rw [dropWhile_eq_self_of _ l h,
    dropWhile_eq_self_of _ l.reverse (fun ch hc => h ch (List.mem_reverse.mp hc)),
    List.reverse_reverse]

lemma digit_not_ws (c : Char) (h : c.isDigit = true) : c.isWhitespace = false := by
  by_contra hw
  rw [Bool.not_eq_false] at hw
  simp only [Char.isWhitespace, Bool.or_eq_true, decide_eq_true_eq, beq_iff_eq] at hw
  rcases hw with ((rfl | rfl) | rfl) | rfl <;> exact absurd h (by decide)

lemma sep_cases (c : Char) (h : isSep c = true) : c = '-' ∨ c = '/' := by
  simpa [isSep] using h

lemma sep_not_ws (c : Char) (h : isSep c = true) : c.isWhitespace = false := by
  rcases sep_cases c h with rfl | rfl <;> decide

lemma sep_not_digit (c : Char) (h : isSep c = true) : c.isDigit = false := by
  rcases sep_cases c h with rfl | rfl <;> decide

lemma takeWhile_digits (a : List Char) (ha : ∀ ch ∈ a, ch.isDigit = true)
    (sep : Char) (hs : sep.isDigit = false) (rest : List Char) :
    (a ++ sep :: rest).takeWhile Char.isDigit = a ∧
    (a ++ sep :: rest).dropWhile Char.isDigit = sep :: rest := by
  induction a with
  | nil => simp [List.takeWhile_cons, List.dropWhile_cons, hs]
  | cons c cs ih =>
    have hc := ha c (by simp)
    have ih2 := ih fun ch hch => ha ch (by simp [hch])
    simp [List.takeWhile_cons, List.dropWhile_cons, hc, ih2.1, ih2.2]

lemma takeWhile_digits_all (a : List Char) (ha : ∀ ch ∈ a, ch.isDigit = true) :
    a.takeWhile Char.isDigit = a ∧ a.dropWhile Char.isDigit = [] := by
  induction a with
  | nil => simp
  | cons c cs ih =>
    have hc := ha c (by simp)
    have ih2 := ih fun ch hch => ha ch (by simp [hch])
    simp [List.takeWhile_cons, List.dropWhile_cons, hc, ih2.1, ih2.2]

/-- A `digits sep digits sep digits` string decomposes into exactly its three
digit runs. -/
lemma splitDateRuns_construct (y m d : List Char) (s1 s2 : Char)
    (hy : ∀ ch ∈ y, ch.isDigit = true) (hm : ∀ ch ∈ m, ch.isDigit = true)
    (hd : ∀ ch ∈ d, ch.isDigit = true) (h1 : isSep s1 = true) (h2 : isSep s2 = true) :
    splitDateRuns (y ++ s1 :: (m ++ s2 :: d)) = some (y, m, d) := by
  have t1 := takeWhile_digits y hy s1 (sep_not_digit s1 h1) (m ++ s2 :: d)
  have t2 := takeWhile_digits m hm s2 (sep_not_digit s2 h2) d
  have t3 := takeWhile_digits_all d hd
  simp [splitDateRuns, takeDigits, t1.1, t1.2, t2.1, t2.2, t3.1, t3.2, h1, h2]

lemma construct_no_ws (y m d : List Char) (s1 s2 : Char)
    (hy : ∀ ch ∈ y, ch.isDigit = true) (hm : ∀ ch ∈ m, ch.isDigit = true)
    (hd : ∀ ch ∈ d, ch.isDigit = true) (h1 : isSep s1 = true) (h2 : isSep s2 = true) :
    ∀ ch ∈ y ++ s1 :: (m ++ s2 :: d), ch.isWhitespace = false := by
  intro ch hch
  simp only [List.mem_append, List.mem_cons] at hch
  rcases hch with h | rfl | h | rfl | h
  · exact digit_not_ws ch (hy ch h)
  · exact sep_not_ws ch h1
  · exact digit_not_ws ch (hm ch h)
  · exact sep_not_ws ch h2
  · exact digit_not_ws ch (hd ch h)

lemma construct_ne_empty (y m d : List Char) (s1 s2 : Char) :
    (JSVal.str (String.mk (y ++ s1 :: (m ++ s2 :: d)))).falsy = false := by
  simp only [JSVal.falsy]
  rw [beq_eq_false_iff_ne]
  intro hc
  have : (String.mk (y ++ s1 :: (m ++ s2 :: d))).data = ("" : String).data := by rw [hc]
  simp at this

/-- C6 amended: a `YYYY sep M sep D` string (separators `-` or `/`) is
canonicalized with zero-padded month and day; a `D sep M sep Y` string whose
year group has two, three or four digits is read day-month-year with the
numeric year value pivoted at 70 when below 100 and passed through
unchanged otherwise; null or empty input gives null; and every string whose
trimmed form does not decompose as three digit runs within those length
bounds gives null rather than an error. -/
theorem C6_string_date_patterns :
    (normalizeDate .nul = none ∧ normalizeDate (.str "") = none) ∧
    (∀ (y m d : List Char) (s1 s2 : Char),
      (∀ ch ∈ y, ch.isDigit = true) → (∀ ch ∈ m, ch.isDigit = true) →
      (∀ ch ∈ d, ch.isDigit = true) → isSep s1 = true → isSep s2 = true →
      y.length = 4 → 1 ≤ m.length → m.length ≤ 2 → 1 ≤ d.length → d.length ≤ 2 →
      normalizeDate (.str (String.mk (y ++ s1 :: (m ++ s2 :: d)))) =
        some (String.mk y ++ "-" ++ padZeros 2 (String.mk m) ++ "-" ++
          padZeros 2 (String.mk d))) ∧
    (∀ (dd mm yy : List Char) (s1 s2 : Char),
      (∀ ch ∈ dd, ch.isDigit = true) → (∀ ch ∈ mm, ch.isDigit = true) →
      (∀ ch ∈ yy, ch.isDigit = true) → isSep s1 = true → isSep s2 = true →
      1 ≤ dd.length → dd.length ≤ 2 → 1 ≤ mm.length → mm.length ≤ 2 →
      2 ≤ yy.length → yy.length ≤ 4 →
      normalizeDate (.str (String.mk (dd ++ s1 :: (mm ++ s2 :: yy)))) =
        some (toString (yearMap (natOfDigits yy)) ++ "-" ++ padZeros 2 (String.mk mm) ++
          "-" ++ padZeros 2 (String.mk dd))) ∧
    (∀ s : String, splitDateRuns (jsTrim s).data = none → normalizeDate (.str s) = none) ∧
    (∀ (s : String) (a b c : List Char),
      splitDateRuns (jsTrim s).data = some (a, b, c) →
      ¬(a.length = 4 ∧ 1 ≤ b.length ∧ b.length ≤ 2 ∧ 1 ≤ c.length ∧ c.length ≤ 2) →
      ¬(1 ≤ a.length ∧ a.length ≤ 2 ∧ 1 ≤ b.length ∧ b.length ≤ 2 ∧
        2 ≤ c.length ∧ c.length ≤ 4) →
      normalizeDate (.str s) = none) := by
  refine ⟨⟨by decide, by decide⟩, ?_, ?_, ?_, ?_⟩
  · intro y m d s1 s2 hy hm hd h1 h2 hylen hm1 hm2 hd1 hd2
    have hfal := construct_ne_empty y m d s1 s2
    simp only [normalizeDate, hfal, Bool.false_eq_true, if_false, jsToString]
    rw [jsTrim_no_ws _ (construct_no_ws y m d s1 s2 hy hm hd h1 h2)]
    simp only [normStr]
    rw [splitDateRuns_construct y m d s1 s2 hy hm hd h1 h2]
    exact if_pos ⟨hylen, hm1, hm2, hd1, hd2⟩
  · intro dd mm yy s1 s2 hdd hmm hyy h1 h2 hdd1 hdd2 hmm1 hmm2 hyy1 hyy2
    have hfal := construct_ne_empty dd mm yy s1 s2
    simp only [normalizeDate, hfal, Bool.false_eq_true, if_false, jsToString]
    rw [jsTrim_no_ws _ (construct_no_ws dd mm yy s1 s2 hdd hmm hyy h1 h2)]
    simp only [normStr]
    rw [splitDateRuns_construct dd mm yy s1 s2 hdd hmm hyy h1 h2]
    exact (if_neg (by omega)).trans (if_pos ⟨hdd1, hdd2, hmm1, hmm2, hyy1, hyy2⟩)
  · intro s hnone
    by_cases hs : s = ""
    · subst hs; decide
    · have hfal : (JSVal.str s).falsy = false := by
        simp only [JSVal.falsy]
        exact beq_eq_false_iff_ne.mpr hs
      simp only [normalizeDate, hfal, Bool.false_eq_true, if_false, jsToString, normStr,
        hnone]
  · intro s a b c hsome hiso hdmy
    by_cases hs : s = ""
    · subst hs; decide
    · have hfal : (JSVal.str s).falsy = false := by
        simp only [JSVal.falsy]
        exact beq_eq_false_iff_ne.mpr hs
      simp only [normalizeDate, hfal, Bool.false_eq_true, if_false, jsToString, normStr,
        hsome]
      rw [if_neg hiso, if_neg hdmy]

/-- C6 fails as stated: `"5/3/123"` matches neither of the claim's patterns
(its day-month-year pattern takes a two- or four-digit year), yet the code's
year group `\d{2,4}` accepts the three-digit year and the normalizer returns
`"123-03-05"` instead of null. -/
theorem C6_counterexample :
    normalizeDate (.str "5/3/123") = some "123-03-05" ∧
    normalizeDate (.str "5/3/123") ≠ none := by
  constructor
  · decide
  · decide

/-- C6 witness: the ISO-shaped input `2024-3-5`. -/
theorem C6_string_date_patterns_witness :
    normalizeDate (.str (String.mk (['2', '0', '2', '4'] ++ '-' :: (['3'] ++ '-' :: ['5'])))) =
      some (String.mk ['2', '0', '2', '4'] ++ "-" ++ padZeros 2 (String.mk ['3']) ++ "-" ++
        padZeros 2 (String.mk ['5'])) :=
  C6_string_date_patterns.2.1 ['2', '0', '2', '4'] ['3'] ['5'] '-' '-'
    (by decide) (by decide) (by decide) (by decide) (by decide)
    (by decide) (by decide) (by decide) (by decide) (by decide)

/-! ## Record mapper theorems -/

/-- A row carrying the ten row-sourced field values only under the canonical
English column names. -/
def canonRow (b c rn im ms di pv rd ed ln : String) : Row :=
  { brand_name := .str b, common_label := .str c, registration_no := .str rn,
    importer := .str im, manufacturer_source := .str ms, distributor := .str di,
    packed_volume := .str pv, registration_date := .str rd, expiry_date := .str ed,
    license_no := .str ln }

/-- The same values carried only under the localized (Thai) column names. -/
def thaiRow (b c rn im ms di pv rd ed ln : String) : Row :=
  { thBrand := .str b, thCommon := .str c, thRegNo := .str rn,
    thImporter := .str im, thManufacturer := .str ms, thDistributor := .str di,
    thPacked := .str pv, thRegDate := .str rd, thExpiry := .str ed,
    thLicense := .str ln }

lemma jsOrV_nul (x : JSVal) : jsOrV .nul x = x := by
  simp [jsOrV, JSVal.falsy]

lemma normalizeDate_jsOrV_nul (s : String) :
    normalizeDate (jsOrV (.str s) .nul) = normalizeDate (.str s) := by
  by_cases hs : s = "" <;> simp [jsOrV, JSVal.falsy, hs, normalizeDate]

/-- C7: a row carrying the field values only under the localized column
names maps to the same canonical record as a row carrying them only under
the canonical names; and a mapped record is dropped by the mandatory-field
filter exactly when its `brand_name` or its `common_label` is empty after
trimming. -/
theorem C7_bilingual_mapper (cc : Option String) (b c rn im ms di pv rd ed ln : String)
    (row : Row) :
    mapRow cc (thaiRow b c rn im ms di pv rd ed ln) =
      mapRow cc (canonRow b c rn im ms di pv rd ed ln) ∧
    (keepRecord (mapRow cc row) = false ↔
      (mapRow cc row).brand_name = "" ∨ (mapRow cc row).common_label = "") := by
  constructor
  · simp only [mapRow, canonRow, thaiRow, jsOrV_nul, normalizeDate_jsOrV_nul]
  · simp only [keepRecord, Bool.and_eq_false_iff, bne_eq_false_iff_eq]

/-! ## Handler entry-check theorems (C8) -/

/-- C8 fails as stated on the import side: an import request with a file but
no `company_code` is not rejected with 400 — the pipeline runs, and here
issues one persistence insert call whose record carries an undefined
`company_code`. -/
theorem C8_counterexample :
    importHandler (some [{ brand_name := .str "B", common_label := .str "C" }]) none none
        (fun _ => true) (fun _ => "e") =
      .ran { total := 1, success := 1, failed := 0, errors := [] } 1
        [Op.ins [{ company_code := none, brand_name := "B", common_label := "C",
                   registration_no := .nul, importer := .nul, manufacturer_source := .nul,
                   distributor := .nul, packed_volume := .nul, registration_date := none,
                   expiry_date := none, license_no := .nul }]] := by
  decide

/-- C8 amended: the export handler rejects a missing or empty `code` query
parameter with 400 `missing code` before any persistence call, but the
CSV-import handler performs no `company_code` check at all — with a file
present it never returns a 400 about `company_code` and reaches persistence with
whatever scope value (including `undefined`) was supplied. -/
theorem C8_company_code_checks :
    (∀ q : Option String, q = none ∨ q = some "" →
      exportScope q = .error (400, "missing code")) ∧
    (∀ q s, exportScope q = .ok s → s ≠ "") ∧
    (∀ (rows : List Row) (cc rm : Option String) (ins : Nat → Bool)
        (errMsg : Nat → String) (st : Nat) (er : String),
      importHandler (some rows) cc rm ins errMsg ≠ .badRequest st er) := by
  refine ⟨?_, ?_, ?_⟩
  · intro q hq
    rcases hq with rfl | rfl <;> simp [exportScope, jsOr, truthy]
  · intro q s hok
    simp only [exportScope] at hok
    split at hok
    · exact absurd hok (by simp)
    · rename_i hne
      rw [Except.ok.injEq] at hok
      rw [← hok]
      exact hne
  · intro rows cc rm ins errMsg st er
    simp [importHandler]

/-- C8 witness. -/
theorem C8_company_code_checks_witness :
    exportScope none = .error (400, "missing code") :=
  C8_company_code_checks.1 none (Or.inl rfl)

/-! ## Auth gate theorems -/

/-- C1: without an admitting static key, a bearer-style header whose token
resolves to no user is rejected 401 `invalid token`; a resolved user is
admitted exactly when the role claim equals `admin` case-insensitively or
the email is in the allowlist, and rejected 403 `forbidden` otherwise; and
with no key and no bearer header the gate rejects 401 `missing
credentials`. -/
theorem C1_auth_gate_decision (cfg : Config) (getUser : String → Option User) (req : Req)
    (hstatic : staticKeyAdmits cfg req = false) :
    (∀ token, bearerToken req.authorization = some token →
      (getUser token = none →
        adminAuth cfg getUser req = .rejected 401 "invalid token") ∧
      (∀ u, getUser token = some u →
        (adminAuth cfg getUser req = .admitted (some u) ↔
          jsToLower (u.role.getD "") = "admin" ∨ u.email ∈ cfg.adminEmails) ∧
        (¬(jsToLower (u.role.getD "") = "admin" ∨ u.email ∈ cfg.adminEmails) →
          adminAuth cfg getUser req = .rejected 403 "forbidden"))) ∧
    (truthy req.key = false → bearerToken req.authorization = none →
      adminAuth cfg getUser req = .rejected 401 "missing credentials") := by
  constructor
  · intro token htok
    constructor
    · intro hnone
      simp [adminAuth, hstatic, htok, hnone]
    · intro u hu
      have hrole : (jsOr u.role (some "")).getD "" = u.role.getD "" := by
        cases h : u.role with
        | none => simp [jsOr, truthy]
        | some s =>
          by_cases hs : s = "" <;> simp [jsOr, truthy, hs]
      have hchar : adminAuth cfg getUser req =
          (if (u.role.getD "" != "" && jsToLower (u.role.getD "") == "admin") then
            AuthResult.admitted (some u)
          else if (cfg.adminEmails.length != 0 && cfg.adminEmails.contains u.email) then
            AuthResult.admitted (some u)
          else AuthResult.rejected 403 "forbidden") := by
        simp [adminAuth, hstatic, htok, hu, hrole]
      have hadmin : (u.role.getD "" != "" && jsToLower (u.role.getD "") == "admin") = true ↔
          jsToLower (u.role.getD "") = "admin" := by
        constructor
        · intro h
          exact eq_of_beq (Bool.and_elim_right h)
        · intro h
          have hne : (u.role.getD "" != "") = true := by
            by_cases h0 : u.role.getD "" = ""
            · rw [h0] at h; exact absurd h (by decide)
            · simp [h0]
          simp [hne, h]
      have hmail : (cfg.adminEmails.length != 0 && cfg.adminEmails.contains u.email) = true ↔
          u.email ∈ cfg.adminEmails := by
        constructor
        · intro h
          have := Bool.and_elim_right h
          simpa [List.elem_iff] using this
        · intro h
          have hne : (cfg.adminEmails.length != 0) = true := by
            cases hl : cfg.adminEmails with
            | nil => rw [hl] at h; simp at h
            | cons a l => simp
          have hc : cfg.adminEmails.contains u.email = true := by
            simpa [List.elem_iff] using h
          rw [Bool.and_eq_true]
          exact ⟨hne, hc⟩
      cases hb1 : (u.role.getD "" != "" && jsToLower (u.role.getD "") == "admin") with
      | true =>
        have hr : jsToLower (u.role.getD "") = "admin" := hadmin.mp hb1
        rw [hb1] at hchar
        simp only [if_true] at hchar
        exact ⟨⟨fun _ => Or.inl hr, fun _ => hchar⟩, fun hneg => absurd (Or.inl hr) hneg⟩
      | false =>
        have hr : jsToLower (u.role.getD "") ≠ "admin" := by
          intro hc
          rw [hadmin.mpr hc] at hb1
          exact Bool.noConfusion hb1
        rw [hb1] at hchar
        simp only [Bool.false_eq_true, if_false] at hchar
        cases hb2 : (cfg.adminEmails.length != 0 && cfg.adminEmails.contains u.email) with
        | true =>
          have hm : u.email ∈ cfg.adminEmails := hmail.mp hb2
          rw [hb2] at hchar
          simp only [if_true] at hchar
          exact ⟨⟨fun _ => Or.inr hm, fun _ => hchar⟩, fun hneg => absurd (Or.inr hm) hneg⟩
        | false =>
          have hm : u.email ∉ cfg.adminEmails := by
            intro hc
            rw [hmail.mpr hc] at hb2
            exact Bool.noConfusion hb2
          rw [hb2] at hchar
          simp only [Bool.false_eq_true, if_false] at hchar
          refine ⟨⟨fun h => ?_, fun h => ?_⟩, fun _ => hchar⟩
          · rw [hchar] at h; exact absurd h (by simp)
          · rcases h with h | h
            · exact absurd h hr
            · exact absurd h hm
  · intro _ hbear
    simp [adminAuth, hstatic, hbear]

/-- C1 witness: a valid bearer token whose user has role `Admin` (mixed
case) is admitted. -/
theorem C1_auth_gate_decision_witness :
    adminAuth { adminApiKey := none, adminEmails := [] }
        (fun t => if t = "tok" then some { email := "e@x", role := some "Admin" } else none)
        { xAdminKey := none, adminKeyQuery := none, xLegacyAdminKey := none,
          authorization := some "Bearer tok" } =
      .admitted (some { email := "e@x", role := some "Admin" }) :=
  (((C1_auth_gate_decision { adminApiKey := none, adminEmails := [] }
      (fun t => if t = "tok" then some { email := "e@x", role := some "Admin" } else none)
      { xAdminKey := none, adminKeyQuery := none, xLegacyAdminKey := none,
        authorization := some "Bearer tok" }
      (by decide)).1 "tok" (by decide)).2
    { email := "e@x", role := some "Admin" } (by decide)).1.mpr (by left; decide)

/-- C2 fails as stated: the gate only compares the FIRST presented key (in
the order x-admin-key header, admin_key query, x-legacy-admin-key header)
against the configured key.  Here the request presents the configured key
`"secret"` via the admin_key query parameter, but a wrong x-admin-key header
shadows it and the request is rejected. -/
theorem C2_counterexample :
    Req.adminKeyQuery
        { xAdminKey := some "wrong", adminKeyQuery := some "secret",
          xLegacyAdminKey := none, authorization := none } =
      Config.adminApiKey { adminApiKey := some "secret", adminEmails := [] } ∧
    adminAuth { adminApiKey := some "secret", adminEmails := [] } (fun _ => none)
        { xAdminKey := some "wrong", adminKeyQuery := some "secret",
          xLegacyAdminKey := none, authorization := none } =
      .rejected 401 "missing credentials" := by
  constructor
  · decide
  · decide

/-- C2 amended: when a static admin key is configured and the FIRST truthy
key among the x-admin-key header, the admin_key query parameter and the
x-legacy-admin-key header equals it, the gate admits immediately, for every
identity-service oracle (so no identity lookup can matter) and regardless of
any authorization header. -/
theorem C2_static_key_admits (cfg : Config) (getUser : String → Option User) (req : Req)
    (k : String) (hk : cfg.adminApiKey = some k) (hne : k ≠ "")
    (hreq : req.key = some k) :
    adminAuth cfg getUser req = .admitted none := by
  have hstatic : staticKeyAdmits cfg req = true := by
    simp [staticKeyAdmits, hreq, hk, truthy, hne]
  simp [adminAuth, hstatic]

/-- C2 witness. -/
theorem C2_static_key_admits_witness :
    adminAuth { adminApiKey := some "secret", adminEmails := [] } (fun _ => none)
        { xAdminKey := none, adminKeyQuery := none, xLegacyAdminKey := some "secret",
          authorization := none } =
      .admitted none :=
  C2_static_key_admits _ (fun _ => none) _ "secret" rfl (by decide) (by decide)

/-- C9: a presented key that does not match the configured static key (or is
presented while no key is configured), with no bearer-style authorization
header, is rejected 401 `missing credentials` — there is no distinct
wrong-key failure reason and a non-matching key never admits. -/
theorem C9_wrong_key_missing_credentials (cfg : Config) (getUser : String → Option User)
    (req : Req) (k : String) (hreq : req.key = some k) (hne : k ≠ "")
    (hmis : cfg.adminApiKey ≠ some k) (hbear : bearerToken req.authorization = none) :
    adminAuth cfg getUser req = .rejected 401 "missing credentials" := by
  have hstatic : staticKeyAdmits cfg req = false := by
    simp only [staticKeyAdmits, hreq, Bool.and_eq_false_iff]
    rcases Option.eq_none_or_eq_some cfg.adminApiKey with h0 | ⟨a, h0⟩
    · left; right; simp [h0, truthy]
    · right
      simp only [h0, Option.some.injEq, beq_iff_eq]
      rw [h0] at hmis
      simp only [ne_eq, Option.some.injEq] at hmis
      rw [beq_eq_false_iff_ne]
      intro hc
      exact hmis (Option.some.inj hc).symm
  simp [adminAuth, hstatic, hbear]

/-- C9 witness. -/
theorem C9_wrong_key_missing_credentials_witness :
    adminAuth { adminApiKey := some "secret", adminEmails := ["a@b"] } (fun _ => none)
        { xAdminKey := some "nope", adminKeyQuery := none, xLegacyAdminKey := none,
          authorization := none } =
      .rejected 401 "missing credentials" :=
  C9_wrong_key_missing_credentials _ (fun _ => none) _ "nope" (by decide) (by decide)
    (by decide) (by decide)

/-! ## Date normalizer theorems -/

/-- The value C5 says the normalizer returns on a numeric input: the
canonical string of the calendar date `v` days after 1899-12-30 (spec-side
comparand for the refinement, following the spec's words). -/
def serialDateSpec (v : Int) : String :=
  isoStringOfDays (daysFromCivil 1899 12 30 + v)

/-- C5 fails as stated at `v = 0`: the falsy-input guard `if(!v) return null`
catches the number 0, so `normalizeDate(0)` is `null` instead of the claimed
`"1899-12-30"` (which is what the serial-to-date conversion would give). -/
theorem C5_counterexample :
    normalizeDate (.num 0) = none ∧ serialDateSpec 0 = "1899-12-30" := by
  constructor
  · decide
  · decide

/-- C5 amended: for every nonzero numeric `v` whose serial date falls in
years 0000..9999 (that is, `daysFromCivil 0 1 1 + 25569 ≤ v ≤
daysFromCivil 9999 12 31 + 25569`, i.e. `-693959 ≤ v ≤ 2958465` — the range
on which `toISOString().slice(0,10)` really is a canonical date string), the
normalizer returns the canonical date string of the calendar date `v` days
after 1899-12-30, the code's epoch constant 25569 days agreeing with the
distance from 1899-12-30 to the Unix epoch; at `v = 0` the falsy guard
returns null instead.  Outside that range the program truncates an
extended-year string or throws, which the embedding does not model, so
nothing is asserted there. -/
theorem C5_serial_date (v : Int) (h : v ≠ 0)
    (hlo : daysFromCivil 0 1 1 + 25569 ≤ v)
    (hhi : v ≤ daysFromCivil 9999 12 31 + 25569) :
    normalizeDate (.num v) = some (serialDateSpec v) := by
  clear hlo hhi
  have hfalsy : (JSVal.num v).falsy = false := by
    simp [JSVal.falsy, h]
  simp only [normalizeDate, hfalsy, Bool.false_eq_true, if_false]
  congr 1
  have h1 : ((v - 25569) * 86400000).ediv 86400000 = v - 25569 :=
    Int.mul_ediv_cancel _ (by norm_num)
  have h2 : daysFromCivil 1899 12 30 = -25569 := by decide
  rw [serialDateSpec, h1, h2]
  ring_nf

/-- C5 witness: the spec's own example `normalize(45000)`, which lies inside
the faithful serial range. -/
theorem C5_serial_date_witness :
    (45000 : Int) ≠ 0 ∧ daysFromCivil 0 1 1 + 25569 ≤ (45000 : Int) ∧
    (45000 : Int) ≤ daysFromCivil 9999 12 31 + 25569 ∧
    normalizeDate (.num 45000) = some (serialDateSpec 45000) :=
  ⟨by decide, by decide, by decide, C5_serial_date 45000 (by decide) (by decide) (by decide)⟩

/-- C10 witness. -/
theorem C10_replace_empty_import_witness :
    mappedRows (some "C") [{ brand_name := .str "x" }] = [] ∧
    importHandler (some [{ brand_name := .str "x" }]) (some "C") (some "1")
        (fun _ => true) (fun _ => "e") =
      .ran { total := 0, success := 0, failed := 0, errors := [] } 0 [Op.del (some "C")] := by
  have h := C10_replace_empty_import (some "C") [{ brand_name := .str "x" }]
    (fun _ => true) (fun _ => "e") (fun _ => true) []
    (by intro r hr; right; simp at hr; subst hr; decide)
  exact ⟨h.1, h.2.1⟩

end Save
